import Mathlib

/-!
Shallow embedding of `src/main.py` (mcp-medicine-server): an HTTP MCP server
exposing five pharmacy tools over a static medicine catalog and a mutable
order ledger.  Python strings are modelled as `String` (operations act on
`String.data`), Python `float` prices as `ℚ`, Python `int` as `Int`, Python
lists/dicts (insertion-ordered) as Lean lists, and the mutable global
`orders` list as explicit state passed through the handlers.  The
non-deterministic `created_at` timestamp field is omitted from the order
record: no behaviour observable by the tools depends on it.
-/

/-- Python's substring test `needle in haystack` on lists of characters:
some tail of the haystack starts with the needle. -/
def containsSub (needle : List Char) : List Char → Bool
  | [] => needle.isEmpty
  | c :: rest => needle.isPrefixOf (c :: rest) || containsSub needle rest

/-- Python's `needle in haystack` for strings. -/
def pyIn (needle haystack : String) : Bool :=
  containsSub needle.data haystack.data

/-- Python's `str.lower()` (per-character lowercasing). -/
def pyLower (s : String) : String :=
  ⟨s.data.map Char.toLower⟩

/-- `s.lower().replace(" ", "")`: the normalization applied to medicine
names at `main.py:164`, `main.py:185` and `main.py:224`. -/
def pyNormalize (s : String) : String :=
  ⟨(s.data.map Char.toLower).filter (fun c => c ≠ ' ')⟩

/-- Truthiness of an optional Python string (`None` and `""` are falsy),
as used by `if dosage:` in `check_availability`. -/
def pyTruthy : Option String → Bool
  | none => false
  | some s => s ≠ ""

/-- One catalog entry of the `MEDICINES` dict (`main.py:16`). -/
structure Medicine where
  name : String
  dosages : List String
  price : ℚ
  category : String
deriving DecidableEq, Repr

/-- The `MEDICINES` dict (`main.py:16-27`), as an insertion-ordered
association list from lookup key to record. -/
def MEDICINES : List (String × Medicine) :=
  [("lisinopril", ⟨"Lisinopril", ["5mg", "10mg", "20mg"], 15.99, "ACE Inhibitor"⟩),
   ("metformin", ⟨"Metformin", ["500mg", "850mg", "1000mg"], 12.50, "Antidiabetic"⟩),
   ("atorvastatin", ⟨"Atorvastatin", ["10mg", "20mg", "40mg"], 18.75, "Statin"⟩),
   ("omeprazole", ⟨"Omeprazole", ["20mg", "40mg"], 9.99, "PPI"⟩),
   ("amlodipine", ⟨"Amlodipine", ["5mg", "10mg"], 14.25, "Calcium Channel Blocker"⟩),
   ("ibuprofen", ⟨"Ibuprofen", ["200mg", "400mg", "600mg"], 8.50, "NSAID"⟩),
   ("acetaminophen", ⟨"Acetaminophen", ["325mg", "500mg", "650mg"], 7.99, "Analgesic"⟩),
   ("aspirin", ⟨"Aspirin", ["81mg", "325mg"], 6.99, "NSAID/Antiplatelet"⟩),
   ("losartan", ⟨"Losartan", ["25mg", "50mg", "100mg"], 16.50, "ARB"⟩),
   ("gabapentin", ⟨"Gabapentin", ["100mg", "300mg", "600mg"], 22.00, "Anticonvulsant"⟩)]

/-- A tool call result: Python dicts of the shape
`{"content": [{"type": "text", "text": t}]}` with an optional
`"isError": True` flag.  Every handler returns a single text block, so the
result is modelled by that text plus the flag (absent flag = `false`). -/
structure ToolResult where
  text : String
  isError : Bool := false
deriving DecidableEq, Repr

/-- Renders Python's `f"{x:.2f}"` for the exact-cent rational values that
arise from catalog prices (all have denominator dividing 100). -/
def fmtMoney (q : ℚ) : String :=
  let c : Int := ⌊q * 100⌋
  let render : Nat → String := fun n =>
    toString (n / 100) ++ "." ++ (if n % 100 < 10 then "0" else "") ++ toString (n % 100)
  if c < 0 then "-" ++ render (-c).toNat else render c.toNat

/-- The name-resolution loop shared verbatim by `check_availability`
(`main.py:166-169`) and `place_order` (`main.py:187-190`): scan the catalog
in order and return the first record whose lookup key contains the
normalized input, or whose normalized display name contains it. -/
def resolveLoop (med_key : String) : List (String × Medicine) → Option Medicine
  | [] => none
  | (key, med) :: rest =>
    if pyIn med_key key || pyIn med_key (pyNormalize med.name) then some med
    else resolveLoop med_key rest

/-- Name resolution on the catalog: `med_key = medicine_name.lower().replace(" ", "")`
followed by the first-match scan. -/
def resolveMedicine (medicine_name : String) : Option Medicine :=
  resolveLoop (pyNormalize medicine_name) MEDICINES

/-- The resolution rule exactly as claim C1's sentence states it, for
comparison with `resolveMedicine`: the first catalog entry such that the
normalized input is a substring of the lookup key OR the lookup key is a
substring of the normalized input (bidirectional containment). -/
def specResolveBidirectional (medicine_name : String) : Option Medicine :=
  (MEDICINES.find? (fun e =>
    pyIn (pyNormalize medicine_name) e.1 ||
    pyIn e.1 (pyNormalize medicine_name))).map (fun e => e.2)

/-- `check_availability` (`main.py:163-181`). -/
def checkAvailability (medicine_name : String) (dosage : Option String) : ToolResult :=
  match resolveMedicine medicine_name with
  | some found_med =>
    if pyTruthy dosage && !(found_med.dosages.contains (dosage.getD "")) then
      { text := "**" ++ found_med.name ++ "** is available but NOT in " ++ dosage.getD "" ++
          " dosage.\nAvailable dosages: " ++ String.intercalate ", " found_med.dosages ++
          "\nPrice: $" ++ fmtMoney found_med.price ++ " per unit" }
    else
      { text := "**" ++ found_med.name ++ "** is IN STOCK\nCategory: " ++ found_med.category ++
          "\nDosages: " ++ String.intercalate ", " found_med.dosages ++
          "\nPrice: $" ++ fmtMoney found_med.price ++ " per unit" ++
          (if pyTruthy dosage then
            "\n" ++ dosage.getD "" ++ " dosage is available for immediate order."
          else "") }
  | none =>
    { text := "**" ++ medicine_name ++ "** is NOT AVAILABLE in our pharmacy inventory." }

/-- An entry of the `orders` ledger (`main.py:195-205`); the
non-deterministic `created_at` timestamp is omitted. -/
structure Order where
  order_id : String
  medicine : String
  dosage : String
  quantity : Int
  patient_id : String
  unit_price : ℚ
  total_price : ℚ
  status : String
deriving DecidableEq, Repr

/-- `f"ORD-{len(orders) + 1001}"` (`main.py:196`). -/
def mkOrderId (len : Nat) : String :=
  "ORD-" ++ toString (len + 1001)

/-- Whether a `place_order` request passes both validation checks
(`main.py:191-194`): the name resolves and the dosage is listed. -/
def placeOrderOk (medicine_name dosage : String) : Bool :=
  match resolveMedicine medicine_name with
  | some found_med => found_med.dosages.contains dosage
  | none => false

/-- `place_order` (`main.py:184-209`): validates, then appends one order to
the ledger.  Returns the tool result together with the new ledger. -/
def placeOrder (s : List Order) (medicine_name dosage : String) (quantity : Int)
    (patient_id : String) : ToolResult × List Order :=
  match resolveMedicine medicine_name with
  | none =>
    ({ text := "Order Failed: " ++ medicine_name ++ " not found.", isError := true }, s)
  | some found_med =>
    if found_med.dosages.contains dosage then
      let order : Order :=
        { order_id := mkOrderId s.length
          medicine := found_med.name
          dosage := dosage
          quantity := quantity
          patient_id := patient_id
          unit_price := found_med.price
          total_price := found_med.price * quantity
          status := "PENDING_PHYSICIAN_APPROVAL" }
      ({ text := "ORDER PLACED\nOrder ID: " ++ order.order_id ++ "\nMedicine: " ++
          order.medicine ++ " " ++ order.dosage ++ "\nQuantity: " ++ toString order.quantity ++
          " units\nTotal: $" ++ fmtMoney order.total_price ++ "\nStatus: " ++ order.status },
       s ++ [order])
    else
      ({ text := "Order Failed: " ++ dosage ++ " not valid for " ++ found_med.name ++ ".",
         isError := true }, s)

/-- The `category_aliases` dict of `search_medicines` (`main.py:127-132`). -/
def CATEGORY_ALIASES : List (String × List String) :=
  [("blood pressure", ["ace inhibitor", "arb", "calcium channel blocker"]),
   ("diabetes", ["antidiabetic"]),
   ("cholesterol", ["statin"]),
   ("pain", ["nsaid", "analgesic"])]

/-- `search_terms` of `search_medicines` (`main.py:133-136`): the lowered
query, extended by the categories of every alias it contains. -/
def searchTerms (query_lower : String) : List String :=
  query_lower :: CATEGORY_ALIASES.foldr
    (fun a acc => (if pyIn a.1 query_lower then a.2 else []) ++ acc) []

/-- The per-entry match test of `search_medicines` (`main.py:138-139`):
some search term occurs in the lookup key, the lowered category, or the
lowered display name. -/
def medMatches (terms : List String) (key : String) (med : Medicine) : Bool :=
  terms.any (fun term =>
    pyIn term key || pyIn term (pyLower med.category) || pyIn term (pyLower med.name))

/-- The `results` list accumulated by `search_medicines` (`main.py:137-150`),
keeping only the medicine record of each appended entry (the `display` part
is derived from the same record when the text is rendered).  An entry is
appended on its first matching term unless the record is already present. -/
def searchResults (query : String) : List Medicine :=
  let terms := searchTerms (pyLower query)
  MEDICINES.foldl
    (fun acc e =>
      if medMatches terms e.1 e.2 then
        (if e.2 ∈ acc then acc else acc ++ [e.2])
      else acc)
    []

/-- `search_medicines` (`main.py:124-160`). -/
def searchMedicines (query : String) : ToolResult :=
  let results := searchResults query
  if results.isEmpty then
    { text := "No medicines found matching '" ++ query ++ "'." }
  else
    { text := "Found " ++ toString results.length ++ " medicine(s) matching '" ++ query ++
        "':\n\n" ++
        String.join ((results.enum).map (fun p =>
          toString (p.1 + 1) ++ ". **" ++ p.2.name ++ "** (" ++ p.2.category ++ ")\n" ++
          "   Dosages: " ++ String.intercalate ", " p.2.dosages ++ "\n" ++
          "   Price: $" ++ fmtMoney p.2.price ++ " per unit\n\n")) }

/-- The `interactions` dict of `check_drug_interactions` (`main.py:213-222`):
ordered pairs of drug keys mapped to (severity, description). -/
def INTERACTIONS : List ((String × String) × (String × String)) :=
  [(("lisinopril", "ibuprofen"),
    ("MODERATE", "NSAIDs may reduce the antihypertensive effect of ACE inhibitors and increase risk of kidney problems")),
   (("lisinopril", "aspirin"),
    ("MINOR", "Low-dose aspirin is generally safe with ACE inhibitors")),
   (("metformin", "ibuprofen"),
    ("MINOR", "NSAIDs may slightly increase risk of lactic acidosis with metformin")),
   (("atorvastatin", "amlodipine"),
    ("SAFE", "No significant interaction - commonly prescribed together")),
   (("lisinopril", "metformin"),
    ("SAFE", "Commonly prescribed together for diabetic patients with hypertension")),
   (("lisinopril", "losartan"),
    ("SEVERE", "Do NOT combine ACE inhibitors with ARBs - increased risk of hyperkalemia and kidney damage")),
   (("ibuprofen", "aspirin"),
    ("MODERATE", "NSAIDs may reduce cardioprotective effect of low-dose aspirin")),
   (("gabapentin", "opioids"),
    ("SEVERE", "Increased risk of respiratory depression - use with extreme caution"))]

/-- One element of `found_interactions` (`main.py:229`). -/
structure Interaction where
  drugs : String
  severity : String
  description : String
deriving DecidableEq, Repr

/-- The ordered pairs `(medicines_lower[i], medicines_lower[j])` with
`i < j`, exactly as produced by the nested loops at `main.py:225-226`. -/
def ipairs {α : Type} : List α → List (α × α)
  | [] => []
  | x :: xs => xs.map (fun y => (x, y)) ++ ipairs xs

/-- The `found_interactions` list before sorting (`main.py:223-231`).
For each unordered input pair and each dictionary entry, a match is
recorded when either orientation of bidirectional-containment holds; the
`drugs` label recovers the original spellings through
`medicines_lower.index(...)` (first occurrence), as the code does. -/
def collectFound (medicines : List String) : List Interaction :=
  let low := medicines.map pyNormalize
  (ipairs low).foldr
    (fun p acc =>
      (INTERACTIONS.foldr
        (fun e acc2 =>
          if ((pyIn e.1.1 p.1 || pyIn p.1 e.1.1) && (pyIn e.1.2 p.2 || pyIn p.2 e.1.2))
              || ((pyIn e.1.2 p.1 || pyIn p.1 e.1.2) && (pyIn e.1.1 p.2 || pyIn p.2 e.1.1)) then
            { drugs := medicines.getD (low.indexOf p.1) "" ++ " + " ++
                medicines.getD (low.indexOf p.2) ""
              severity := e.2.1
              description := e.2.2 } :: acc2
          else acc2)
        []) ++ acc)
    []

/-- `severity_order.get(x["severity"], 4)` (`main.py:233-234`). -/
def severityRank (s : String) : Nat :=
  if s = "SEVERE" then 0
  else if s = "MODERATE" then 1
  else if s = "MINOR" then 2
  else if s = "SAFE" then 3
  else 4

/-- Insertion step of the stable sort by severity rank: the new element is
placed before the first element of rank not smaller than its own. -/
def insertBySeverity (x : Interaction) : List Interaction → List Interaction
  | [] => [x]
  | y :: ys =>
    if severityRank x.severity ≤ severityRank y.severity then x :: y :: ys
    else y :: insertBySeverity x ys

/-- `found_interactions.sort(key=lambda x: severity_order.get(x["severity"], 4))`
(`main.py:234`).  Python's `list.sort` is a stable sort by the key; a
stable sort by a key is unique, so insertion sort realizes it. -/
def sortBySeverity : List Interaction → List Interaction
  | [] => []
  | x :: xs => insertBySeverity x (sortBySeverity xs)

/-- `check_drug_interactions` (`main.py:212-240`). -/
def checkDrugInteractions (medicines : List String) : ToolResult :=
  let found := collectFound medicines
  if found.isEmpty then
    { text := "No known interactions found between: " ++ String.intercalate ", " medicines }
  else
    { text := "Drug Interaction Check for: " ++ String.intercalate ", " medicines ++ "\n\n" ++
        String.join ((sortBySeverity found).map (fun i =>
          "[" ++ i.severity ++ "] " ++ i.drugs ++ ": " ++ i.description ++ "\n\n")) }

/-- `get_order_status` (`main.py:243-248`): linear scan for the first order
with the given id. -/
def getOrderStatus (s : List Order) (order_id : String) : ToolResult :=
  match s.find? (fun o => o.order_id == order_id) with
  | some o =>
    { text := "Order " ++ o.order_id ++ ": " ++ o.medicine ++ " " ++ o.dosage ++
        " x" ++ toString o.quantity ++ " - " ++ o.status }
  | none =>
    { text := "Order " ++ order_id ++ " not found.", isError := true }

/-- The `arguments` dict of a `tools/call` request: the keys
`handle_tool_call` reads, each possibly absent. -/
structure ToolArgs where
  query : Option String := none
  medicine_name : Option String := none
  dosage : Option String := none
  quantity : Option Int := none
  patient_id : Option String := none
  medicines : Option (List String) := none
  order_id : Option String := none
deriving DecidableEq, Repr

/-- `handle_tool_call` (`main.py:251-263`), with the ledger as explicit
state: only the `place_order` branch can return a changed ledger. -/
def handleToolCall (s : List Order) (name : String) (args : ToolArgs) :
    ToolResult × List Order :=
  if name = "search_medicines" then
    (searchMedicines (args.query.getD ""), s)
  else if name = "check_availability" then
    (checkAvailability (args.medicine_name.getD "") args.dosage, s)
  else if name = "place_order" then
    placeOrder s (args.medicine_name.getD "") (args.dosage.getD "")
      (args.quantity.getD 30) (args.patient_id.getD "UNKNOWN")
  else if name = "check_drug_interactions" then
    (checkDrugInteractions (args.medicines.getD []), s)
  else if name = "get_order_status" then
    (getOrderStatus s (args.order_id.getD ""), s)
  else
    ({ text := "Unknown tool: " ++ name, isError := true }, s)

/-- Runs a sequence of tool calls against the ledger, threading the state
(`orders` is the only mutable global). -/
def runCalls (s : List Order) : List (String × ToolArgs) → List Order
  | [] => s
  | c :: rest => runCalls (handleToolCall s c.1 c.2).2 rest

/-- Whether a tool call is a `place_order` that passes validation, i.e. is
the one kind of call that appends to the ledger. -/
def callOk (name : String) (args : ToolArgs) : Bool :=
  name == "place_order" && placeOrderOk (args.medicine_name.getD "") (args.dosage.getD "")

/-- Number of successful `place_order` calls in a sequence. -/
def countSuccess (calls : List (String × ToolArgs)) : Nat :=
  calls.countP (fun c => callOk c.1 c.2)

/-- The ledger's list of order ids, in append order. -/
def orderIds (s : List Order) : List String :=
  s.map (fun o => o.order_id)

/-- The names of the five entries of the `TOOLS` list (`main.py:33-121`);
the static JSON schemas are data no dispatch decision depends on. -/
def TOOL_NAMES : List String :=
  ["search_medicines", "check_availability", "place_order",
   "check_drug_interactions", "get_order_status"]

/-- The `params` dict of a JSON-RPC request body. -/
structure McpParams where
  name : Option String := none
  arguments : Option ToolArgs := none
deriving Repr

/-- A parsed JSON-RPC request body.  `body.get("method", "")` yields a
string (`""` when absent), so `method` is the extracted string; the `id`
field is passed through untouched, so its JSON type is an arbitrary `α`
(`none` models an absent id). -/
structure McpRequest (α : Type) where
  method : String := ""
  id : Option α := none
  params : McpParams := {}

/-- The `result` member of a response: one constructor per branch of the
dispatcher (`main.py:277-288`). -/
inductive McpResult where
  | initResult (protocolVersion serverName serverVersion serverDescription : String)
  | toolsList (toolNames : List String)
  | callResult (r : ToolResult)
  | unknownMethod (code : Int) (message : String)
deriving DecidableEq, Repr

/-- The SSE message `{"jsonrpc": "2.0", "id": request_id, "result": result}`
(`main.py:301`). -/
structure Envelope (α : Type) where
  jsonrpc : String
  id : Option α
  result : McpResult

/-- `handle_mcp_request` (`main.py:266-305`) after a successful JSON parse:
dispatch on `method` and wrap the result in the response envelope, always
with HTTP status 200. -/
def handleMcpRequest {α : Type} (s : List Order) (body : McpRequest α) :
    Envelope α × List Order :=
  if body.method = "initialize" then
    ({ jsonrpc := "2.0", id := body.id
       result := .initResult "2024-11-05" "medicine-order-server" "1.0.0"
         "Medicine ordering and drug interaction checking" }, s)
  else if body.method = "tools/list" then
    ({ jsonrpc := "2.0", id := body.id, result := .toolsList TOOL_NAMES }, s)
  else if body.method = "tools/call" then
    ({ jsonrpc := "2.0", id := body.id
       result := .callResult
         (handleToolCall s (body.params.name.getD "") (body.params.arguments.getD {})).1 },
     (handleToolCall s (body.params.name.getD "") (body.params.arguments.getD {})).2)
  else
    ({ jsonrpc := "2.0", id := body.id
       result := .unknownMethod (-32601) ("Unknown method: " ++ body.method) }, s)

/-! ### Decimal representation: `Nat.repr` is injective

Order ids are the strings `f"ORD-{len + 1001}"`; establishing that distinct
lengths yield distinct ids requires injectivity of the decimal rendering,
proved here through a structurally recursive digit function. -/

/-- Decimal digit string of a natural number, most significant digit
first: the value computed by `Nat.toDigits 10`. -/
def decRepr (n : Nat) : List Char :=
  if _h : n < 10 then [Nat.digitChar n]
  else decRepr (n / 10) ++ [Nat.digitChar (n % 10)]
termination_by n
decreasing_by exact Nat.div_lt_self (by omega) (by omega)

theorem decRepr_of_lt {n : Nat} (h : n < 10) : decRepr n = [Nat.digitChar n] := by
  rw [decRepr]
  exact dif_pos h

theorem decRepr_of_ge {n : Nat} (h : ¬ n < 10) :
    decRepr n = decRepr (n / 10) ++ [Nat.digitChar (n % 10)] := by
  rw [decRepr]
  exact dif_neg h

theorem decRepr_ne_nil (n : Nat) : decRepr n ≠ [] := by
  by_cases h : n < 10
  · rw [decRepr_of_lt h]
    simp
  · rw [decRepr_of_ge h]
    simp

theorem digitChar_inj_lt : ∀ m < 10, ∀ n < 10,
    Nat.digitChar m = Nat.digitChar n → m = n := by decide

theorem decRepr_inj : ∀ m n : Nat, decRepr m = decRepr n → m = n := by
  intro m
  induction m using Nat.strong_induction_on with
  | _ m ih =>
    intro n h
    by_cases hm : m < 10 <;> by_cases hn : n < 10
    · rw [decRepr_of_lt hm, decRepr_of_lt hn] at h
      exact digitChar_inj_lt m hm n hn (List.cons.injEq .. ▸ h).1
    · exfalso
      rw [decRepr_of_lt hm, decRepr_of_ge hn] at h
      have hlen := congrArg List.length h
      simp only [List.length_singleton, List.length_append, List.length_cons,
        List.length_nil] at hlen
      have h0 : (decRepr (n / 10)).length = 0 := by omega
      exact decRepr_ne_nil _ (List.length_eq_zero.mp h0)
    · exfalso
      rw [decRepr_of_ge hm, decRepr_of_lt hn] at h
      have hlen := congrArg List.length h
      simp only [List.length_singleton, List.length_append, List.length_cons,
        List.length_nil] at hlen
      have h0 : (decRepr (m / 10)).length = 0 := by omega
      exact decRepr_ne_nil _ (List.length_eq_zero.mp h0)
    · rw [decRepr_of_ge hm, decRepr_of_ge hn] at h
      have h' := congrArg List.reverse h
      simp only [List.reverse_append, List.reverse_cons, List.reverse_nil,
        List.nil_append, List.singleton_append, List.cons.injEq] at h'
      obtain ⟨hdig, hrest⟩ := h'
      have hmod : m % 10 = n % 10 :=
        digitChar_inj_lt _ (Nat.mod_lt _ (by omega)) _ (Nat.mod_lt _ (by omega)) hdig
      have hdiv : m / 10 = n / 10 := by
        have hrev := congrArg List.reverse hrest
        simp only [List.reverse_reverse] at hrev
        exact ih (m / 10) (Nat.div_lt_self (by omega) (by omega)) (n / 10) hrev
      have h1 := Nat.div_add_mod m 10
      have h2 := Nat.div_add_mod n 10
      omega

theorem toDigitsCore_eq_decRepr :
    ∀ (fuel n : Nat) (ds : List Char), n < fuel →
      Nat.toDigitsCore 10 fuel n ds = decRepr n ++ ds := by
  intro fuel
  induction fuel with
  | zero => omega
  | succ f ih =>
    intro n ds h
    show (if n / 10 = 0 then Nat.digitChar (n % 10) :: ds
          else Nat.toDigitsCore 10 f (n / 10) (Nat.digitChar (n % 10) :: ds)) =
         decRepr n ++ ds
    by_cases h10 : n / 10 = 0
    · have hn : n < 10 := by
        have := Nat.div_add_mod n 10
        have := Nat.mod_lt n (show 0 < 10 by omega)
        omega
      rw [if_pos h10, decRepr_of_lt hn, Nat.mod_eq_of_lt hn]
      rfl
    · have hge : ¬ n < 10 := fun hlt => h10 (Nat.div_eq_of_lt hlt)
      have hlt : n / 10 < f := by
        have := Nat.div_lt_self (show 0 < n by omega) (show 1 < 10 by omega)
        omega
      rw [if_neg h10, ih (n / 10) (Nat.digitChar (n % 10) :: ds) hlt, decRepr_of_ge hge]
      simp

theorem repr_eq_decRepr (n : Nat) : Nat.repr n = ⟨decRepr n⟩ := by
  show (Nat.toDigitsCore 10 (n + 1) n []).asString = _
  rw [toDigitsCore_eq_decRepr (n + 1) n [] (by omega)]
  simp [List.asString]

theorem mkOrderId_inj {a b : Nat} (h : mkOrderId a = mkOrderId b) : a = b := by
  unfold mkOrderId at h
  have h' : "ORD-" ++ Nat.repr (a + 1001) = "ORD-" ++ Nat.repr (b + 1001) := h
  rw [repr_eq_decRepr, repr_eq_decRepr] at h'
  have hd := congrArg String.data h'
  simp only [String.data_append] at hd
  have hdec : decRepr (a + 1001) = decRepr (b + 1001) := by
    simpa using hd
  have := decRepr_inj _ _ hdec
  omega

/-! ### Ledger evolution -/

theorem handleToolCall_ids (s : List Order) (n : String) (a : ToolArgs) :
    orderIds (handleToolCall s n a).2 =
      orderIds s ++ (if callOk n a then [mkOrderId s.length] else []) := by
  by_cases h3 : n = "place_order"
  · subst h3
    simp only [handleToolCall, callOk, beq_self_eq_true, Bool.true_and]
    norm_num
    unfold placeOrder placeOrderOk
    rcases hr : resolveMedicine (a.medicine_name.getD "") with _ | m
    · simp [orderIds]
    · by_cases hc : a.dosage.getD "" ∈ m.dosages
      · simp [hc, orderIds]
      · simp [hc, orderIds]
  · have hok : callOk n a = false := by
      simp only [callOk, Bool.and_eq_false_iff]
      left
      simpa using h3
    rw [hok]
    simp only [Bool.false_eq_true, if_false, List.append_nil]
    unfold handleToolCall
    by_cases h1 : n = "search_medicines"
    · simp [h1]
    by_cases h2 : n = "check_availability"
    · simp [h1, h2]
    by_cases h4 : n = "check_drug_interactions"
    · simp [h1, h2, h3, h4]
    by_cases h5 : n = "get_order_status"
    · simp [h1, h2, h3, h4, h5]
    simp [h1, h2, h3, h4, h5]

theorem handleToolCall_length (s : List Order) (n : String) (a : ToolArgs) :
    (handleToolCall s n a).2.length = s.length + (if callOk n a then 1 else 0) := by
  have h := congrArg List.length (handleToolCall_ids s n a)
  simp only [orderIds, List.length_map, List.length_append] at h
  rcases hok : callOk n a with _ | _ <;> simp [hok] at h ⊢ <;> omega

theorem runCalls_ids : ∀ (calls : List (String × ToolArgs)) (s : List Order),
    orderIds (runCalls s calls) =
      orderIds s ++ (List.range (countSuccess calls)).map (fun i => mkOrderId (s.length + i)) := by
  intro calls
  induction calls with
  | nil => intro s; simp [runCalls, countSuccess, List.countP_nil]
  | cons c rest ih =>
    intro s
    have hstep : runCalls s (c :: rest) = runCalls (handleToolCall s c.1 c.2).2 rest := rfl
    have hcount : countSuccess (c :: rest) =
        countSuccess rest + (if callOk c.1 c.2 then 1 else 0) := by
      simp [countSuccess, List.countP_cons]
    rw [hstep, ih, handleToolCall_ids, handleToolCall_length]
    rcases hok : callOk c.1 c.2 with _ | _
    · simp [hok, hcount]
    · simp only [hok, if_true, hcount]
      rw [List.range_succ_eq_map, List.map_cons, List.map_map]
      have hmap : (List.range (countSuccess rest)).map
            ((fun i => mkOrderId (s.length + i)) ∘ Nat.succ) =
          (List.range (countSuccess rest)).map (fun i => mkOrderId (s.length + 1 + i)) := by
        apply List.map_congr_left
        intro i _
        simp only [Function.comp_apply]
        congr 1
        omega
      rw [hmap]
      simp [List.append_assoc, Nat.add_zero]

theorem runCalls_nodup (calls : List (String × ToolArgs)) :
    (orderIds (runCalls [] calls)).Nodup := by
  rw [runCalls_ids calls []]
  simp only [orderIds, List.map_nil, List.length_nil, List.nil_append]
  apply List.Nodup.map
  · intro i j hij
    have := mkOrderId_inj hij
    omega
  · exact List.nodup_range _

theorem find?_eq_of_mem_of_nodup :
    ∀ (l : List Order), (l.map (fun o => o.order_id)).Nodup →
      ∀ o ∈ l, l.find? (fun x => x.order_id == o.order_id) = some o := by
  intro l
  induction l with
  | nil => intro _ o ho; cases ho
  | cons h t ih =>
    intro hnd o ho
    simp only [List.map_cons, List.nodup_cons] at hnd
    rw [List.find?_cons]
    rcases hph : (h.order_id == o.order_id) with _ | _
    · have hne : o ≠ h := by
        intro he
        rw [he] at hph
        simp at hph
      have hot : o ∈ t := by
        rcases List.mem_cons.mp ho with he | hot
        · exact absurd he hne
        · exact hot
      exact ih hnd.2 o hot
    · have heq : h.order_id = o.order_id := by simpa using hph
      rcases List.mem_cons.mp ho with he | hot
      · rw [he]
      · exfalso
        exact hnd.1 (heq ▸ List.mem_map_of_mem (fun o => o.order_id) hot)

/-! ### The severity sort is a stable sort by rank -/

theorem severityRank_cases (s : String) :
    severityRank s = 0 ∨ severityRank s = 1 ∨ severityRank s = 2 ∨
    severityRank s = 3 ∨ severityRank s = 4 := by
  unfold severityRank
  repeat' split
  all_goals simp

theorem mem_insertBySeverity {z x : Interaction} :
    ∀ {l : List Interaction}, z ∈ insertBySeverity x l ↔ z = x ∨ z ∈ l := by
  intro l
  induction l with
  | nil => simp [insertBySeverity]
  | cons y ys ih =>
    simp only [insertBySeverity]
    by_cases hxy : severityRank x.severity ≤ severityRank y.severity
    · rw [if_pos hxy]
      simp
    · rw [if_neg hxy]
      simp only [List.mem_cons, ih]
      tauto

theorem pairwise_insertBySeverity (x : Interaction) :
    ∀ (l : List Interaction),
      l.Pairwise (fun a b => severityRank a.severity ≤ severityRank b.severity) →
      (insertBySeverity x l).Pairwise
        (fun a b => severityRank a.severity ≤ severityRank b.severity) := by
  intro l
  induction l with
  | nil =>
    intro _
    simp [insertBySeverity]
  | cons y ys ih =>
    intro h
    rcases List.pairwise_cons.mp h with ⟨hy, hys⟩
    simp only [insertBySeverity]
    by_cases hxy : severityRank x.severity ≤ severityRank y.severity
    · rw [if_pos hxy]
      refine List.pairwise_cons.mpr ⟨?_, h⟩
      intro z hz
      rcases List.mem_cons.mp hz with rfl | hz'
      · exact hxy
      · exact le_trans hxy (hy z hz')
    · rw [if_neg hxy]
      refine List.pairwise_cons.mpr ⟨?_, ih hys⟩
      intro z hz
      rcases mem_insertBySeverity.mp hz with rfl | hz'
      · omega
      · exact hy z hz'

theorem sortBySeverity_sorted (l : List Interaction) :
    (sortBySeverity l).Pairwise
      (fun a b => severityRank a.severity ≤ severityRank b.severity) := by
  induction l with
  | nil => simp [sortBySeverity]
  | cons x xs ih => exact pairwise_insertBySeverity x (sortBySeverity xs) ih

theorem insert_append_of_lt (x : Interaction) :
    ∀ (A B : List Interaction),
      (∀ y ∈ A, severityRank y.severity < severityRank x.severity) →
      insertBySeverity x (A ++ B) = A ++ insertBySeverity x B := by
  intro A B
  induction A with
  | nil => intro _; simp
  | cons a A ih =>
    intro h
    have ha := h a (by simp)
    simp only [List.cons_append, insertBySeverity, List.append_eq]
    rw [if_neg (by omega), ih (fun y hy => h y (by simp [hy]))]

theorem insert_of_le (x : Interaction) (B : List Interaction)
    (h : ∀ y ∈ B, severityRank x.severity ≤ severityRank y.severity) :
    insertBySeverity x B = x :: B := by
  cases B with
  | nil => rfl
  | cons b B =>
    simp only [insertBySeverity]
    rw [if_pos (h b (by simp))]

theorem sortBySeverity_eq_buckets (l : List Interaction) :
    sortBySeverity l =
      l.filter (fun i => severityRank i.severity == 0) ++
      l.filter (fun i => severityRank i.severity == 1) ++
      l.filter (fun i => severityRank i.severity == 2) ++
      l.filter (fun i => severityRank i.severity == 3) ++
      l.filter (fun i => severityRank i.severity == 4) := by
  induction l with
  | nil => rfl
  | cons x l ih =>
    show insertBySeverity x (sortBySeverity l) = _
    rw [ih]
    simp only [List.append_assoc]
    rcases severityRank_cases x.severity with h | h | h | h | h
    · rw [insert_of_le x _ (by
        intro y hy
        simp only [List.mem_append, List.mem_filter, beq_iff_eq] at hy
        omega)]
      simp [List.filter_cons, h, List.append_assoc]
    · rw [insert_append_of_lt x _ _ (by
        intro y hy
        simp only [List.mem_filter, beq_iff_eq] at hy
        omega)]
      rw [insert_of_le x _ (by
        intro y hy
        simp only [List.mem_append, List.mem_filter, beq_iff_eq] at hy
        omega)]
      simp [List.filter_cons, h, List.append_assoc]
    · rw [insert_append_of_lt x _ _ (by
        intro y hy
        simp only [List.mem_filter, beq_iff_eq] at hy
        omega)]
      rw [insert_append_of_lt x _ _ (by
        intro y hy
        simp only [List.mem_filter, beq_iff_eq] at hy
        omega)]
      rw [insert_of_le x _ (by
        intro y hy
        simp only [List.mem_append, List.mem_filter, beq_iff_eq] at hy
        omega)]
      simp [List.filter_cons, h, List.append_assoc]
    · rw [insert_append_of_lt x _ _ (by
        intro y hy
        simp only [List.mem_filter, beq_iff_eq] at hy
        omega)]
      rw [insert_append_of_lt x _ _ (by
        intro y hy
        simp only [List.mem_filter, beq_iff_eq] at hy
        omega)]
      rw [insert_append_of_lt x _ _ (by
        intro y hy
        simp only [List.mem_filter, beq_iff_eq] at hy
        omega)]
      rw [insert_of_le x _ (by
        intro y hy
        simp only [List.mem_append, List.mem_filter, beq_iff_eq] at hy
        omega)]
      simp [List.filter_cons, h, List.append_assoc]
    · rw [insert_append_of_lt x _ _ (by
        intro y hy
        simp only [List.mem_filter, beq_iff_eq] at hy
        omega)]
      rw [insert_append_of_lt x _ _ (by
        intro y hy
        simp only [List.mem_filter, beq_iff_eq] at hy
        omega)]
      rw [insert_append_of_lt x _ _ (by
        intro y hy
        simp only [List.mem_filter, beq_iff_eq] at hy
        omega)]
      rw [insert_append_of_lt x _ _ (by
        intro y hy
        simp only [List.mem_filter, beq_iff_eq] at hy
        omega)]
      rw [insert_of_le x _ (by
        intro y hy
        simp only [List.mem_filter, beq_iff_eq] at hy
        omega)]
      simp [List.filter_cons, h, List.append_assoc]

/-! ### Handler-level facts -/

theorem resolveLoop_eq_find? (k : String) :
    ∀ l : List (String × Medicine),
      resolveLoop k l =
        (l.find? (fun e => pyIn k e.1 || pyIn k (pyNormalize e.2.name))).map
          (fun e => e.2) := by
  intro l
  induction l with
  | nil => rfl
  | cons e rest ih =>
    rcases e with ⟨key, med⟩
    show (if pyIn k key || pyIn k (pyNormalize med.name) then some med
          else resolveLoop k rest) = _
    rw [List.find?_cons]
    rcases hc : (pyIn k key || pyIn k (pyNormalize med.name)) with _ | _
    · simp only [Bool.false_eq_true, if_false, ih]
    · rfl

theorem searchMedicines_notError (q : String) : (searchMedicines q).isError = false := by
  show (if (searchResults q).isEmpty then _ else _ : ToolResult).isError = false
  split <;> rfl

theorem checkAvailability_notError (mn : String) (d : Option String) :
    (checkAvailability mn d).isError = false := by
  unfold checkAvailability
  rcases h : resolveMedicine mn with _ | m <;> simp only [h]
  split <;> rfl

theorem checkDrugInteractions_notError (ms : List String) :
    (checkDrugInteractions ms).isError = false := by
  show (if (collectFound ms).isEmpty then _ else _ : ToolResult).isError = false
  split <;> rfl

theorem placeOrder_isError (s : List Order) (mn d : String) (q : Int) (p : String) :
    (placeOrder s mn d q p).1.isError = !(placeOrderOk mn d) := by
  unfold placeOrder placeOrderOk
  rcases h : resolveMedicine mn with _ | m <;> simp only [h]
  · rfl
  · by_cases hc : m.dosages.contains d
    · rw [hc]
      simp only [Bool.not_true]
      rw [if_pos (by simpa using hc)]
    · rw [Bool.eq_false_iff.mpr hc]
      simp only [Bool.not_false]
      rw [if_neg (by simpa using hc)]

theorem placeOrder_state (s : List Order) (mn d : String) (q : Int) (p : String)
    (h : placeOrderOk mn d = false) : (placeOrder s mn d q p).2 = s := by
  unfold placeOrder
  unfold placeOrderOk at h
  rcases hr : resolveMedicine mn with _ | m
  · simp only [hr]
  · simp only [hr] at h
    simp only [hr]
    rw [if_neg (by simp [List.contains_eq_any_beq] at h ⊢; simpa [eq_comm] using h)]

theorem getOrderStatus_isError (s : List Order) (oid : String) :
    (getOrderStatus s oid).isError = true ↔ ∀ o ∈ s, o.order_id ≠ oid := by
  unfold getOrderStatus
  rcases h : s.find? (fun o => o.order_id == oid) with _ | o <;> simp only [h]
  · simp only [List.find?_eq_none, beq_iff_eq] at h
    simpa using h
  · have hmem := List.mem_of_find?_eq_some h
    have hprop := List.find?_some h
    simp only [beq_iff_eq] at hprop
    constructor
    · intro hfalse
      simp at hfalse
    · intro hall
      exact absurd hprop (hall o hmem)

theorem handleToolCall_state (s : List Order) (name : String) (args : ToolArgs)
    (h : callOk name args = false) : (handleToolCall s name args).2 = s := by
  unfold handleToolCall
  by_cases h1 : name = "search_medicines"
  · simp [h1]
  by_cases h2 : name = "check_availability"
  · simp [h1, h2]
  by_cases h3 : name = "place_order"
  · subst h3
    simp only [if_neg h1, if_neg h2, if_pos rfl]
    refine placeOrder_state s _ _ _ _ ?_
    simpa [callOk] using h
  by_cases h4 : name = "check_drug_interactions"
  · simp [h1, h2, h3, h4]
  by_cases h5 : name = "get_order_status"
  · simp [h1, h2, h3, h4, h5]
  simp [h1, h2, h3, h4, h5]

/-! ### The claims -/

/-- C1 counterexample: on input `"lisinopril10mg"` the lookup key
`"lisinopril"` of the first catalog entry IS a substring of the normalized
input, so the resolution rule stated by the claim (bidirectional
containment) returns Lisinopril — but the code's resolution, which only
tests containment of the input in the key (or in the normalized display
name), finds nothing and reports NotFound. -/
theorem claimC1_counterexample :
    specResolveBidirectional "lisinopril10mg" =
      some ⟨"Lisinopril", ["5mg", "10mg", "20mg"], 15.99, "ACE Inhibitor"⟩ ∧
    resolveMedicine "lisinopril10mg" = none := by
  constructor
  · with_unfolding_all rfl
  · rfl

/-- C1 (amended): the name resolution used by `check_availability` and
`place_order` (both call the scan embodied in `resolveMedicine`) lower-cases
the input and removes spaces, then returns the first catalog entry, in
catalog iteration order, such that the normalized input is a substring of
the entry's lookup key OR a substring of the entry's space-stripped
lower-cased display name — one-directional containment only — and NotFound
when no entry satisfies this. -/
theorem claimC1_resolution_first_match (medicine_name : String) :
    resolveMedicine medicine_name =
      (MEDICINES.find? (fun e =>
        pyIn (pyNormalize medicine_name) e.1 ||
        pyIn (pyNormalize medicine_name) (pyNormalize e.2.name))).map (fun e => e.2) :=
  resolveLoop_eq_find? (pyNormalize medicine_name) MEDICINES

/-- C2: after any sequence of tool calls containing exactly N successful
`place_order` calls (arbitrarily interleaved with other calls, including
failed `place_order` attempts), the ledger's order ids, in append order,
are exactly `ORD-1001, …, ORD-(1000+N)` — strictly increasing, gap-free,
and (by `Nodup`) never repeated or reused. -/
theorem claimC2_sequential_order_ids (calls : List (String × ToolArgs)) :
    orderIds (runCalls [] calls) =
      (List.range (countSuccess calls)).map (fun i => "ORD-" ++ toString (1001 + i)) ∧
    (orderIds (runCalls [] calls)).Nodup := by
  constructor
  · rw [runCalls_ids calls []]
    simp only [orderIds, List.map_nil, List.length_nil, List.nil_append]
    apply List.map_congr_left
    intro i _
    unfold mkOrderId
    have he : 0 + i + 1001 = 1001 + i := by omega
    rw [he]
  · exact runCalls_nodup calls

/-- C3: `place_order` is atomic and the only state-changing tool.  Whenever
a call is not a successful `place_order` (so: any other tool, an unknown
tool, or a `place_order` that fails name resolution or dosage validation),
the ledger is returned unchanged; and if that call was a `place_order`, its
result carries the error flag. -/
theorem claimC3_place_order_atomic (s : List Order) (name : String) (args : ToolArgs)
    (h : callOk name args = false) :
    (handleToolCall s name args).2 = s ∧
    (name = "place_order" → (handleToolCall s name args).1.isError = true) := by
  refine ⟨handleToolCall_state s name args h, ?_⟩
  intro hn
  subst hn
  show (placeOrder s (args.medicine_name.getD "") (args.dosage.getD "")
    (args.quantity.getD 30) (args.patient_id.getD "UNKNOWN")).1.isError = true
  rw [placeOrder_isError]
  have hok : placeOrderOk (args.medicine_name.getD "") (args.dosage.getD "") = false := by
    simpa [callOk] using h
  simp [hok]

/-- Witness for C3 at the spec's own example: `place_order("metformin",
"999mg", 30)` fails dosage validation, flags the error, and leaves the
(empty) ledger unchanged. -/
theorem claimC3_witness :
    callOk "place_order"
      ⟨none, some "metformin", some "999mg", some 30, none, none, none⟩ = false ∧
    ((handleToolCall [] "place_order"
        ⟨none, some "metformin", some "999mg", some 30, none, none, none⟩).2 = [] ∧
      ("place_order" = "place_order" →
        (handleToolCall [] "place_order"
          ⟨none, some "metformin", some "999mg", some 30, none, none, none⟩).1.isError = true)) :=
  ⟨by decide,
   claimC3_place_order_atomic [] "place_order"
     ⟨none, some "metformin", some "999mg", some 30, none, none, none⟩ (by decide)⟩

/-- C4: `search_medicines`, `check_availability` and
`check_drug_interactions` never set the error flag, for any input (a
no-match outcome is a normal informational result); among the tool
handlers the flag is set exactly for a `place_order` whose name does not
resolve or whose dosage is invalid, and for a `get_order_status` whose id
matches no ledger entry. -/
theorem claimC4_error_flag_exactly (q mn : String) (d : Option String) (ms : List String)
    (s : List Order) (pn pd : String) (pq : Int) (pp oid : String) :
    (searchMedicines q).isError = false ∧
    (checkAvailability mn d).isError = false ∧
    (checkDrugInteractions ms).isError = false ∧
    ((placeOrder s pn pd pq pp).1.isError = true ↔ placeOrderOk pn pd = false) ∧
    ((getOrderStatus s oid).isError = true ↔ ∀ o ∈ s, o.order_id ≠ oid) := by
  refine ⟨searchMedicines_notError q, checkAvailability_notError mn d,
    checkDrugInteractions_notError ms, ?_, getOrderStatus_isError s oid⟩
  rw [placeOrder_isError]
  rcases placeOrderOk pn pd with _ | _ <;> simp

/-- C5: the interaction check is symmetric on the pair
lisinopril/losartan: both orders of the two-element input produce exactly
one collected match, with severity SEVERE and the same description text
(only the `drugs` label follows the input order). -/
theorem claimC5_interaction_symmetric :
    collectFound ["lisinopril", "losartan"] =
      [⟨"lisinopril + losartan", "SEVERE",
        "Do NOT combine ACE inhibitors with ARBs - increased risk of hyperkalemia and kidney damage"⟩] ∧
    collectFound ["losartan", "lisinopril"] =
      [⟨"losartan + lisinopril", "SEVERE",
        "Do NOT combine ACE inhibitors with ARBs - increased risk of hyperkalemia and kidney damage"⟩] :=
  ⟨rfl, rfl⟩

/-- C6: for every input list, the sorted matches of
`check_drug_interactions` are ordered by nondecreasing severity rank
(SEVERE=0 < MODERATE=1 < MINOR=2 < SAFE=3, anything else 4 = last), and the
sort is stable: the output is exactly the rank-0 matches in scan order,
then the rank-1 matches in scan order, and so on. -/
theorem claimC6_sort_stable_by_severity (medicines : List String) :
    (sortBySeverity (collectFound medicines)).Pairwise
      (fun a b => severityRank a.severity ≤ severityRank b.severity) ∧
    sortBySeverity (collectFound medicines) =
      (collectFound medicines).filter (fun i => severityRank i.severity == 0) ++
      (collectFound medicines).filter (fun i => severityRank i.severity == 1) ++
      (collectFound medicines).filter (fun i => severityRank i.severity == 2) ++
      (collectFound medicines).filter (fun i => severityRank i.severity == 3) ++
      (collectFound medicines).filter (fun i => severityRank i.severity == 4) :=
  ⟨sortBySeverity_sorted _, sortBySeverity_eq_buckets _⟩

/-- C7: for every request whose method is `initialize`, `tools/list` or
`tools/call`, the dispatcher's response envelope is
`{jsonrpc: "2.0", id, result}` with `id` equal to the request's `id`. -/
theorem claimC7_envelope_echoes_id {α : Type} (s : List Order) (body : McpRequest α)
    (h : body.method = "initialize" ∨ body.method = "tools/list" ∨
         body.method = "tools/call") :
    (handleMcpRequest s body).1.jsonrpc = "2.0" ∧
    (handleMcpRequest s body).1.id = body.id := by
  unfold handleMcpRequest
  rcases h with h | h | h <;> simp [h]

/-- Witness for C7 at a concrete `initialize` request with id 7. -/
theorem claimC7_witness :
    (({ method := "initialize", id := some 7 } : McpRequest Nat).method = "initialize" ∨
      ({ method := "initialize", id := some 7 } : McpRequest Nat).method = "tools/list" ∨
      ({ method := "initialize", id := some 7 } : McpRequest Nat).method = "tools/call") ∧
    ((handleMcpRequest [] ({ method := "initialize", id := some 7 } : McpRequest Nat)).1.jsonrpc
        = "2.0" ∧
      (handleMcpRequest [] ({ method := "initialize", id := some 7 } : McpRequest Nat)).1.id
        = some 7) :=
  ⟨Or.inl rfl, claimC7_envelope_echoes_id [] _ (Or.inl rfl)⟩

/-- C8: for every request whose method is none of the three recognized
ones, the dispatcher still returns a success envelope (jsonrpc 2.0, the
request's id) whose result is the embedded error object
`{error: {code: -32601, message: "Unknown method: <method>"}}` — not a
transport-level failure. -/
theorem claimC8_unknown_method (s : List Order) (body : McpRequest Nat)
    (h1 : body.method ≠ "initialize") (h2 : body.method ≠ "tools/list")
    (h3 : body.method ≠ "tools/call") :
    (handleMcpRequest s body).1 =
      { jsonrpc := "2.0", id := body.id
        result := .unknownMethod (-32601) ("Unknown method: " ++ body.method) } ∧
    (handleMcpRequest s body).2 = s := by
  unfold handleMcpRequest
  rw [if_neg h1, if_neg h2, if_neg h3]
  exact ⟨rfl, rfl⟩

/-- Witness for C8 at the concrete unknown method `"resources/list"`. -/
theorem claimC8_witness :
    ({ method := "resources/list", id := some 3 } : McpRequest Nat).method ≠ "initialize" ∧
    ({ method := "resources/list", id := some 3 } : McpRequest Nat).method ≠ "tools/list" ∧
    ({ method := "resources/list", id := some 3 } : McpRequest Nat).method ≠ "tools/call" ∧
    ((handleMcpRequest [] ({ method := "resources/list", id := some 3 } : McpRequest Nat)).1 =
      { jsonrpc := "2.0", id := some 3
        result := .unknownMethod (-32601) ("Unknown method: " ++ "resources/list") } ∧
     (handleMcpRequest [] ({ method := "resources/list", id := some 3 } : McpRequest Nat)).2
        = []) :=
  ⟨by decide, by decide, by decide,
   claimC8_unknown_method [] { method := "resources/list", id := some 3 }
     (by decide) (by decide) (by decide)⟩

/-- C9: against any ledger reachable from the empty one, `get_order_status`
with an id held by no ledger entry returns the error-flagged NotFound
result, while for any order in the ledger (i.e. any order a successful
`place_order` appended — nothing else writes the ledger and entries are
never mutated) it returns a non-error result carrying exactly the recorded
medicine, dosage, quantity and status. -/
theorem claimC9_order_status (calls : List (String × ToolArgs)) (oid : String) :
    ((∀ o ∈ runCalls [] calls, o.order_id ≠ oid) →
      getOrderStatus (runCalls [] calls) oid =
        { text := "Order " ++ oid ++ " not found.", isError := true }) ∧
    (∀ o ∈ runCalls [] calls,
      getOrderStatus (runCalls [] calls) o.order_id =
        { text := "Order " ++ o.order_id ++ ": " ++ o.medicine ++ " " ++ o.dosage ++
            " x" ++ toString o.quantity ++ " - " ++ o.status, isError := false }) := by
  constructor
  · intro hall
    unfold getOrderStatus
    have hnone : (runCalls [] calls).find? (fun o => o.order_id == oid) = none := by
      rw [List.find?_eq_none]
      intro x hx
      simp [hall x hx]
    rw [hnone]
  · intro o ho
    unfold getOrderStatus
    have hnd : ((runCalls [] calls).map (fun o => o.order_id)).Nodup := runCalls_nodup calls
    rw [find?_eq_of_mem_of_nodup _ hnd o ho]

/-- Witness for C9: after one successful order, the unissued id `ORD-9999`
reports NotFound with the error flag, and the issued id `ORD-1001` reports
the recorded order without the error flag. -/
theorem claimC9_witness :
    (∀ o ∈ runCalls []
        [("place_order", ⟨none, some "metformin", some "500mg", some 30, some "P-001",
          none, none⟩)], o.order_id ≠ "ORD-9999") ∧
    getOrderStatus (runCalls []
        [("place_order", ⟨none, some "metformin", some "500mg", some 30, some "P-001",
          none, none⟩)]) "ORD-9999" =
      { text := "Order ORD-9999 not found.", isError := true } ∧
    (⟨"ORD-1001", "Metformin", "500mg", 30, "P-001", 12.50, 375,
        "PENDING_PHYSICIAN_APPROVAL"⟩ : Order) ∈ runCalls []
      [("place_order", ⟨none, some "metformin", some "500mg", some 30, some "P-001",
        none, none⟩)] ∧
    getOrderStatus (runCalls []
        [("place_order", ⟨none, some "metformin", some "500mg", some 30, some "P-001",
          none, none⟩)])
      (⟨"ORD-1001", "Metformin", "500mg", 30, "P-001", 12.50, 375,
        "PENDING_PHYSICIAN_APPROVAL"⟩ : Order).order_id =
      { text := "Order ORD-1001: Metformin 500mg x30 - PENDING_PHYSICIAN_APPROVAL",
        isError := false } := by
  refine ⟨by decide, ?_, by with_unfolding_all decide, ?_⟩
  · exact (claimC9_order_status
      [("place_order", ⟨none, some "metformin", some "500mg", some 30, some "P-001",
        none, none⟩)] "ORD-9999").1 (by decide)
  · exact (claimC9_order_status
      [("place_order", ⟨none, some "metformin", some "500mg", some 30, some "P-001",
        none, none⟩)] "ORD-9999").2
      ⟨"ORD-1001", "Metformin", "500mg", 30, "P-001", 12.50, 375,
        "PENDING_PHYSICIAN_APPROVAL"⟩ (by with_unfolding_all decide)

/-- C10: the empty medicine name — which is also what the dispatcher passes
when a `tools/call` request omits the `medicine_name` argument — resolves
to the first catalog entry, Lisinopril, instead of NotFound (the empty
normalized input is a substring of every key), so `check_availability`
reports it in stock and `place_order` with a valid Lisinopril dosage
succeeds; likewise `search_medicines` with an empty query matches and
returns every catalog entry. -/
theorem claimC10_empty_name_matches_first (s : List Order) :
    handleToolCall s "check_availability" {} = (checkAvailability "" none, s) ∧
    resolveMedicine "" =
      some ⟨"Lisinopril", ["5mg", "10mg", "20mg"], 15.99, "ACE Inhibitor"⟩ ∧
    (checkAvailability "" none).isError = false ∧
    (placeOrder s "" "10mg" 30 "UNKNOWN").1.isError = false ∧
    searchResults "" = MEDICINES.map (fun e => e.2) := by
  refine ⟨rfl, rfl, rfl, ?_, by with_unfolding_all rfl⟩
  rw [placeOrder_isError]
  rfl

/-- Witness for C4 at concrete inputs: a no-match search and availability
check stay unflagged, an unresolvable `place_order` is flagged, and a
lookup of an id absent from the empty ledger is flagged. -/
theorem claimC4_witness :
    (searchMedicines "unobtainium").isError = false ∧
    (checkAvailability "unobtainium" none).isError = false ∧
    (checkDrugInteractions ["unobtainium"]).isError = false ∧
    ((placeOrder [] "unobtainium" "10mg" 30 "P-001").1.isError = true ↔
      placeOrderOk "unobtainium" "10mg" = false) ∧
    ((getOrderStatus [] "ORD-1001").isError = true ↔
      ∀ o ∈ ([] : List Order), o.order_id ≠ "ORD-1001") :=
  claimC4_error_flag_exactly "unobtainium" "unobtainium" none ["unobtainium"]
    [] "unobtainium" "10mg" 30 "P-001" "ORD-1001"
